import Mathlib

/-!
Verification of the cube container orchestrator (manager, worker, scheduler).

Shallow embedding conventions:
- Go `float64` quantities that the claims treat structurally (scores) are
  modelled as rationals; the E-PVM cost formula, which the claims treat
  algebraically, is modelled over the reals.
- `uuid.UUID` is modelled as a natural number; `time.Time` as a natural.
- Fallible effects (HTTP calls, docker driver calls, host stats) are passed
  in as explicit oracle functions.
- Go maps are modelled as association lists; reading a missing key yields
  the zero value of the value type, exactly as in Go.
- Go slices built by `append` from a nil slice are nil iff they are empty,
  so they are modelled as plain lists and the Go `== nil` test on them as
  an emptiness test.  Go maps distinguish nil from empty-but-allocated, so
  score maps are modelled as `Option` of an association list (`none` = nil
  map).
- A Go panic (nil-pointer dereference, failed interface type assertion) is
  modelled as `Except.error`.
-/

namespace Cube

/-! ## Task state machine (`task` package) -/

/-- Task `State` enumeration from the `task` package. -/
inductive State where
  | Pending
  | Scheduled
  | Running
  | Completed
  | Stopped
  | Failed
deriving DecidableEq, Repr, Fintype

/-- The `stateTransitionMap` table.  In Go this is a map literal with no
entry for `Stopped`; indexing a map at a missing key yields the zero value,
namely the nil (empty) slice, so `Stopped` is modelled with an empty row. -/
def stateTransitionMap : State → List State
  | State.Pending => [State.Scheduled]
  | State.Scheduled => [State.Scheduled, State.Running, State.Failed]
  | State.Running => [State.Running, State.Completed, State.Failed]
  | State.Completed => []
  | State.Failed => []
  | State.Stopped => []

/-- `ValidStateTransition(src, dst)`: `slices.Contains(stateTransitionMap[src], dst)`. -/
def ValidStateTransition (src dst : State) : Bool :=
  (stateTransitionMap src).contains dst

/-! ## Data model -/

/-- The `Task` record (`task` package), restricted to the fields the
verified code paths read or write.  `ID` is a natural standing for the
UUID, times are naturals, `RestartCount` is a Go `int` hence an integer. -/
structure Task where
  id : Nat
  containerID : String
  name : String
  state : State
  image : String
  cpu : ℚ
  memory : Int
  disk : Int
  hostPorts : List (String × String)
  startTime : Nat
  finishTime : Nat
  healthCheck : String
  restartCount : Int
deriving DecidableEq, Repr

/-- The `TaskEvent` record. -/
structure TaskEvent where
  id : Nat
  timestamp : Nat
  state : State
  task : Task
deriving DecidableEq, Repr

/-- The `Node` record (`node` package); the cached `Stats` snapshot is
reached only through the stats oracles and is not carried here. -/
structure Node where
  name : String
  ip : String
  api : String
  cores : Int
  memory : Int
  memoryAllocated : Int
  disk : Int
  diskAllocated : Int
  role : String
  taskCount : Int
deriving DecidableEq, Repr

/-! ## Association-list maps

Modelled from the spec: the `cube/store` package is not among the source
files; per spec section 4.6 a Store is a key-value container whose `Put` is
total (overwrite, no duplicate-key error) and whose `Get` returns the value
of a prior `Put` or fails when the key is absent, and the in-memory variant
is a plain map.  The same representation serves for the Go maps held
directly by the Manager (`TaskWorkerMap`, `WorkerTaskMap`). -/

/-- Overwriting insert: replaces the entry for `k` or appends a fresh one. -/
def mapPut {K V : Type} [DecidableEq K] : List (K × V) → K → V → List (K × V)
  | [], k, v => [(k, v)]
  | p :: ps, k, v => if p.1 = k then (k, v) :: ps else p :: mapPut ps k v

/-- Keyed lookup; `none` when the key is absent. -/
def mapGet {K V : Type} [DecidableEq K] (mp : List (K × V)) (k : K) : Option V :=
  (mp.find? (fun p => decide (p.1 = k))).map Prod.snd

/-! ## Scheduler (`scheduler` package) -/

/-- `checkDisk`: the task fits iff its disk request is at most the slack. -/
def checkDisk (t : Task) (diskAvailable : Int) : Bool :=
  t.disk ≤ diskAvailable

/-- `selectCandidateNodes` (shared by Greedy and E-PVM): keep the nodes
whose unallocated disk fits the task.  The Go loop appends to a nil slice,
which is equivalent to a filter (nil iff empty). -/
def selectCandidateNodes (t : Task) (nodes : List Node) : List Node :=
  nodes.filter (fun n => checkDisk t (n.disk - n.diskAllocated))

/-- `calculateLoad(usage, capacity) = usage / capacity`. -/
def calculateLoad (usage capacity : ℚ) : ℚ :=
  usage / capacity

/-- Reading `scores[name]` in Go: the stored value, or the float zero value
`0.0` when the name is absent from the map. -/
def lookupScore (scores : List (String × ℚ)) (name : String) : ℚ :=
  match mapGet scores name with
  | some s => s
  | none => 0

/-- The loop body shared verbatim by `RoundRobin.Pick`, `Greedy.Pick` and
`Epvm.Pick`: scan the remaining candidates, replacing the current best
exactly when a strictly lower score is read. -/
def pickAux (scores : List (String × ℚ)) (best : Node) (lowest : ℚ) :
    List Node → Node
  | [] => best
  | c :: cs =>
    if lookupScore scores c.name < lowest then
      pickAux scores c (lookupScore scores c.name) cs
    else
      pickAux scores best lowest cs

/-- `Pick(scores, candidates)`: all three scheduler implementations run the
identical loop, seeding the best node with the candidate at index 0; on an
empty candidate list the Go `bestNode` pointer stays nil (`none`). -/
def Pick (scores : List (String × ℚ)) (candidates : List Node) : Option Node :=
  match candidates with
  | [] => none
  | c :: cs => some (pickAux scores c (lookupScore scores c.name) cs)

/-- The map built by the `Greedy.Score` loop: for each node, ask the CPU
usage probe (`calculateCpuUsage`, a blocking HTTP exchange modelled as the
oracle `cpuUsage`); on error skip the node, otherwise record
`calculateLoad(usage, capacity)` under the node name.  `capacity` stands
for the literal `math.Pow(2, 0.8)`, an irrational constant carried here as
a parameter. -/
def GreedyScoreList (cpuUsage : Node → Option ℚ) (capacity : ℚ)
    (nodes : List Node) : List (String × ℚ) :=
  nodes.foldl
    (fun acc n =>
      match cpuUsage n with
      | none => acc
      | some u => mapPut acc n.name (calculateLoad u capacity))
    []

/-- `Greedy.Score`: the map is allocated with `make` before the loop, so the
returned Go map is never nil — hence always `some`. -/
def GreedyScore (cpuUsage : Node → Option ℚ) (capacity : ℚ)
    (nodes : List Node) : Option (List (String × ℚ)) :=
  some (GreedyScoreList cpuUsage capacity nodes)

/-! ## Manager placement (`manager.SelectWorker`) -/

/-- `Manager.SelectWorker`, parameterised by the bound Scheduler operations.
The Go code tests `candidates == nil`; every candidate slice reaching this
point is append-built, so nil coincides with empty.  It then tests
`scores == nil`, which distinguishes a nil map (`none`) from an allocated
empty map (`some []`).  The Go method returns the `Pick` result pointer
unconditionally, so the success value is an `Option Node`. -/
def SelectWorker (candidatesOf : List Node → List Node)
    (scoreOf : List Node → Option (List (String × ℚ)))
    (workerNodes : List Node) : Except String (Option Node) :=
  let candidates := candidatesOf workerNodes
  if candidates = [] then
    Except.error "No available candidates match resource request for task"
  else
    match scoreOf candidates with
    | none => Except.error "no scores returned to task"
    | some scores => Except.ok (Pick scores candidates)

/-- Score of a node as `Pick` reads it: the map entry under the node name,
or the Go zero value 0.0 when the name is absent. -/
def nodeScore (scores : List (String × ℚ)) (n : Node) : ℚ :=
  lookupScore scores n.name

/-! ## Concrete fixtures used by witnesses and counterexamples -/

/-- A node as `node.NewNode` builds it: only name, api and role are set. -/
def mkNode (nm : String) : Node :=
  { name := nm, ip := "", api := "http://" ++ nm, cores := 0, memory := 0,
    memoryAllocated := 0, disk := 0, diskAllocated := 0, role := "worker",
    taskCount := 0 }

/-- A freshly submitted task in state `Pending` with no resource requests. -/
def mkTask (i : Nat) (nm : String) : Task :=
  { id := i, containerID := "", name := nm, state := State.Pending,
    image := "nginx", cpu := 0, memory := 0, disk := 0, hostPorts := [],
    startTime := 0, finishTime := 0, healthCheck := "", restartCount := 0 }

/-- Stats oracle whose call fails for the node named "a" and reports zero
CPU usage everywhere else (`calculateCpuUsage` returns 0.00 when both time
deltas vanish). -/
def statsFailA : Node → Option ℚ :=
  fun n => if n.name = "a" then none else some 0

/-- Stats oracle whose call fails for the node named "w1" and reports zero
CPU usage everywhere else. -/
def statsFailW1 : Node → Option ℚ :=
  fun n => if n.name = "w1" then none else some 0

/-- Stats oracle that fails for every node. -/
def statsFailAll : Node → Option ℚ :=
  fun _ => none

/-- A task requesting more disk than the bare fixture nodes offer. -/
def bigTask : Task :=
  { mkTask 2 "big" with disk := 5 }

/-- Score map fixture with both fixture nodes present. -/
def wScores : List (String × ℚ) :=
  [("a", 1), ("b", 2)]

/-! ## Container driver results (`task` package) -/

/-- `DockerResult` as returned by the driver operations; `Error` is an
optional message. -/
structure DockerResult where
  error : Option String
  action : String
  containerID : String
  result : String
deriving DecidableEq, Repr

/-- The `State` sub-record of an inspected container. -/
structure ContainerState where
  status : String
deriving DecidableEq, Repr

/-- The slice of the container description that `updateTasks` reads:
`State.Status` and `NetworkSettings.NetworkSettingsBase.Ports`. -/
structure ContainerInfo where
  state : ContainerState
  ports : List (String × String)
deriving DecidableEq, Repr

/-- `DockerInspectResponse`: `Container` is a Go pointer, nil (`none`) when
the inspect call failed. -/
structure DockerInspectResponse where
  error : Option String
  container : Option ContainerInfo
deriving DecidableEq, Repr

/-! ## Worker (`worker` package) -/

/-- `Worker.StopTask`: call `driver.Stop(containerID)` (the oracle `stop`);
log the error if any, then unconditionally stamp `FinishTime`, set the
state to `Completed` and persist.  Returns the driver result and the
updated task store. -/
def StopTask (stop : String → DockerResult) (now : Nat)
    (db : List (Nat × Task)) (t : Task) : DockerResult × List (Nat × Task) :=
  let result := stop t.containerID
  -- `if result.Error != nil` only logs
  let t := { t with finishTime := now, state := State.Completed }
  (result, mapPut db t.id t)

/-- One iteration of the `worker.updateTasks` loop body for a task `t`
taken from the store snapshot.  On a nil `Container` the Go code first
persists `State=Failed` and then immediately reads
`resp.Container.State.Status`, a nil-pointer dereference that panics: the
panic is modelled as `Except.error`. -/
def updateTasksStep (inspect : Task → DockerInspectResponse)
    (db : List (Nat × Task)) (t : Task) : Except String (List (Nat × Task)) :=
  if t.state = State.Running then
    let resp := inspect t
    -- `if resp.Error != nil` only prints
    let t1 := if resp.container = none then { t with state := State.Failed } else t
    let db1 := if resp.container = none then mapPut db t1.id t1 else db
    match resp.container with
    | none =>
      Except.error "runtime error: invalid memory address or nil pointer dereference"
    | some c =>
      let t2 := if c.state.status = "exited" then { t1 with state := State.Failed } else t1
      let db2 := if c.state.status = "exited" then mapPut db1 t2.id t2 else db1
      let t3 := { t2 with hostPorts := c.ports }
      Except.ok (mapPut db2 t3.id t3)
  else
    Except.ok db

/-- The `worker.updateTasks` pass over a snapshot of the stored tasks. -/
def updateTasksGo (inspect : Task → DockerInspectResponse) :
    List Task → List (Nat × Task) → Except String (List (Nat × Task))
  | [], db => Except.ok db
  | t :: ts, db =>
    match updateTasksStep inspect db t with
    | Except.error e => Except.error e
    | Except.ok db1 => updateTasksGo inspect ts db1

/-- `worker.updateTasks`: list the stored tasks and reconcile each Running
one against the container runtime. -/
def updateTasks (inspect : Task → DockerInspectResponse)
    (db : List (Nat × Task)) : Except String (List (Nat × Task)) :=
  updateTasksGo inspect (db.map Prod.snd) db

/-! ## Manager (`manager` package) -/

/-- An item of the Pending queue.  The queue holds `interface` values: the
API enqueues `TaskEvent`s, but `SendWork` and `restartTask` re-enqueue bare
`Task`s after a transport failure. -/
inductive PendingItem where
  | event (te : TaskEvent)
  | task (t : Task)
deriving DecidableEq, Repr

/-- Outcome of an HTTP POST of a task event to a worker, as `SendWork` and
`restartTask` observe it: a transport error, or a response carrying a
status code (`created` iff 201) and a body whose decoding may fail. -/
inductive PostOutcome where
  | transportError
  | response (created : Bool) (decodeOk : Bool) (body : Task)
deriving DecidableEq, Repr

/-- The Manager state touched by the verified code paths. -/
structure MState where
  pending : List PendingItem
  taskDb : List (Nat × Task)
  eventDb : List (Nat × TaskEvent)
  workerTaskMap : List (String × List Nat)
  taskWorkerMap : List (Nat × String)
  workerNodes : List Node
deriving DecidableEq, Repr

/-- `m.WorkerTaskMap[w] = append(m.WorkerTaskMap[w], id)`: a missing key
reads as the nil slice, so the entry is created on first append. -/
def appendWorkerTask (mp : List (String × List Nat)) (w : String) (id : Nat) :
    List (String × List Nat) :=
  mapPut mp w (((mapGet mp w).getD []) ++ [id])

/-- `w.TaskCount++` on the worker node named `nm`. -/
def bumpTaskCount (nodes : List Node) (nm : String) : List Node :=
  nodes.map (fun n => if n.name = nm then { n with taskCount := n.taskCount + 1 } else n)

/-- `Manager.SendWork`, parameterised by the placement decision
(`selectW`, abstracting `Manager.SelectWorker` over the current worker
nodes) and the network (`post`).  The dequeue performs the type assertion
`e.(task.TaskEvent)`, which panics (modelled as `Except.error`) when the
head of the queue is a bare `Task` re-enqueued by an earlier transport
failure.  `EventDb.Put` on the in-memory store always succeeds, and
marshalling an event cannot fail in the model (its Go failure is only
logged anyway, without aborting). -/
def SendWork (selectW : Task → List Node → Except String (Option Node))
    (post : TaskEvent → String → PostOutcome) (m : MState) :
    Except String MState :=
  match m.pending with
  | [] => Except.ok m
  | PendingItem.task _ :: _ =>
    Except.error "interface conversion: interface is task.Task, not task.TaskEvent"
  | PendingItem.event te :: rest =>
    let m := { m with pending := rest, eventDb := mapPut m.eventDb te.id te }
    match mapGet m.taskWorkerMap te.task.id with
    | some _ =>
      -- the task is already placed
      match mapGet m.taskDb te.task.id with
      | none => Except.ok m      -- "Unable to schedule task": log and return
      | some persisted =>
        if te.state = State.Completed ∧ ValidStateTransition persisted.state te.state then
          -- m.stopTask issues a DELETE to the worker; it changes no manager state
          Except.ok m
        else
          -- "Invalid request ... cannot transition to the completed state"
          Except.ok m
    | none =>
      -- new placement
      let t := te.task
      match selectW t m.workerNodes with
      | Except.error _ => Except.ok m    -- "Error selecting worker": log and return
      | Except.ok none =>
        -- `w.Name` on a nil node pointer would panic; unreachable for the
        -- shipped schedulers, whose Pick is non-nil on nonempty candidates
        Except.error "runtime error: invalid memory address or nil pointer dereference"
      | Except.ok (some w) =>
        let m := { m with
          workerTaskMap := appendWorkerTask m.workerTaskMap w.name te.task.id,
          taskWorkerMap := mapPut m.taskWorkerMap t.id w.name }
        let t := { t with state := State.Scheduled }
        let m := { m with taskDb := mapPut m.taskDb t.id t }
        match post te w.name with
        | PostOutcome.transportError =>
          -- "Error connecting": re-enqueue the bare task (not the event)
          Except.ok { m with pending := m.pending ++ [PendingItem.task t] }
        | PostOutcome.response created decodeOk _ =>
          if created then
            if decodeOk then
              Except.ok { m with workerNodes := bumpTaskCount m.workerNodes w.name }
            else
              Except.ok m                -- decode error: log and return
          else
            Except.ok m                  -- non-201: decode the error body, log

/-- `Manager.restartTask`: look up the worker for the task (a missing map
entry reads as the empty string), set the state to `Scheduled`, increment
`RestartCount` by one, persist, then POST a synthetic
`TaskEvent{State: Running}` straight to that worker; a transport error
re-enqueues the bare task onto Pending, any other outcome only logs. -/
def restartTask (post : TaskEvent → String → PostOutcome)
    (newEventId now : Nat) (m : MState) (t : Task) : MState :=
  let w := (mapGet m.taskWorkerMap t.id).getD ""
  let t := { t with state := State.Scheduled, restartCount := t.restartCount + 1 }
  let m := { m with taskDb := mapPut m.taskDb t.id t }
  let te : TaskEvent := { id := newEventId, state := State.Running, timestamp := now, task := t }
  match post te w with
  | PostOutcome.transportError => { m with pending := m.pending ++ [PendingItem.task t] }
  | PostOutcome.response _ _ _ => m

/-- The `manager.doHealthChecks` loop over a snapshot of the stored tasks:
a Running task with `RestartCount < 3` is health-probed (the oracle
`health` returns true when `checkTaskHealth` returned no error) and
restarted on failure under a second `RestartCount < 3` guard; a Failed
task with `RestartCount < 3` is restarted unconditionally. -/
def doHealthChecksGo (health : Task → Bool)
    (post : TaskEvent → String → PostOutcome) (newEventId now : Nat) :
    List Task → MState → MState
  | [], m => m
  | t :: ts, m =>
    let m :=
      if t.state = State.Running ∧ t.restartCount < 3 then
        if health t then m
        else if t.restartCount < 3 then restartTask post newEventId now m t
        else m
      else if t.state = State.Failed ∧ t.restartCount < 3 then
        restartTask post newEventId now m t
      else m
    doHealthChecksGo health post newEventId now ts m

/-- `manager.doHealthChecks`: iterate `m.GetTasks()`, the list of stored
tasks. -/
def doHealthChecks (health : Task → Bool)
    (post : TaskEvent → String → PostOutcome) (newEventId now : Nat)
    (m : MState) : MState :=
  doHealthChecksGo health post newEventId now (m.taskDb.map Prod.snd) m

/-! ## Fixtures for the worker and manager claims -/

/-- A task in state Running bound to container "c1". -/
def runningTask : Task :=
  { mkTask 1 "running" with state := State.Running, containerID := "c1" }

/-- A task in state Failed with two restarts already consumed. -/
def failedTask2 : Task :=
  { mkTask 2 "failed" with state := State.Failed, restartCount := 2 }

/-- Inspect oracle for a container that no longer exists: error set,
`Container == nil`. -/
def inspectNil : Task → DockerInspectResponse :=
  fun _ => { error := some "Error: No such container", container := none }

/-- Placement oracle that always selects the worker "w1". -/
def selOkW1 : Task → List Node → Except String (Option Node) :=
  fun _ _ => Except.ok (some (mkNode "w1"))

/-- Network oracle: every POST fails with a transport error. -/
def postFailAlways : TaskEvent → String → PostOutcome :=
  fun _ _ => PostOutcome.transportError

/-- Event fixture: a submission asking for task 7 to run. -/
def te7 : TaskEvent :=
  { id := 3, timestamp := 0, state := State.Running, task := mkTask 7 "t7" }

/-- Manager fixture about to dispatch `te7` to its single worker. -/
def m0 : MState :=
  { pending := [PendingItem.event te7], taskDb := [], eventDb := [],
    workerTaskMap := [("w1", [])], taskWorkerMap := [], workerNodes := [mkNode "w1"] }

/-- Health oracle: every probe fails. -/
def healthFailAll : Task → Bool :=
  fun _ => false

/-- Manager fixture holding one Running and one Failed task. -/
def mHealth : MState :=
  { pending := [], taskDb := [(1, runningTask), (2, failedTask2)], eventDb := [],
    workerTaskMap := [("w1", [1, 2])], taskWorkerMap := [(1, "w1"), (2, "w1")],
    workerNodes := [mkNode "w1"] }

/-! ## E-PVM cost (`scheduler` package, real-valued) -/

/-- The Lieb square-ice constant, base of the E-PVM load penalty. -/
noncomputable def LIEB : ℝ := 1.53960071783900203869

/-- The `maxJobs` constant fixed to 4.0 inside `Epvm.Score`. -/
noncomputable def maxJobs : ℝ := 4.0

/-- The `cpuCost` term of `Epvm.Score`, verbatim from the source:
`L^cpuLoad + L^((TaskCount+1)/maxJobs) − L^cpuLoad − L^(TaskCount/maxJobs)`
with real exponentiation. -/
noncomputable def cpuCost (cpuLoad : ℝ) (taskCount : Int) : ℝ :=
  LIEB ^ cpuLoad + LIEB ^ (((taskCount : ℝ) + 1) / maxJobs)
    - LIEB ^ cpuLoad - LIEB ^ ((taskCount : ℝ) / maxJobs)

end Cube

namespace Cube

/-! ## Claim theorems: state machine -/

/-- C1: `ValidStateTransition src dst` is true exactly when `dst` is in the
legal-transition row of `src`: Pending only to Scheduled; Scheduled to
Scheduled, Running or Failed; Running to Running, Completed or Failed;
Completed, Failed and Stopped have no outgoing transitions. -/
theorem validStateTransition_matches_table :
    ∀ src dst : State,
      ValidStateTransition src dst = true ↔
        ((src = State.Pending ∧ dst = State.Scheduled) ∨
         (src = State.Scheduled ∧
           (dst = State.Scheduled ∨ dst = State.Running ∨ dst = State.Failed)) ∨
         (src = State.Running ∧
           (dst = State.Running ∨ dst = State.Completed ∨ dst = State.Failed))) := by
  decide

/-- C10: `Stopped` is never the source nor the target of an accepted
transition: `ValidStateTransition s Stopped` and
`ValidStateTransition Stopped s` are false for every state `s`. -/
theorem stopped_is_isolated :
    ∀ s : State,
      ValidStateTransition s State.Stopped = false ∧
      ValidStateTransition State.Stopped s = false := by
  decide

/-! ## Association-list lemmas -/

theorem mapGet_cons {K V : Type} [DecidableEq K] (p : K × V) (ps : List (K × V))
    (k : K) : mapGet (p :: ps) k = if p.1 = k then some p.2 else mapGet ps k := by
  by_cases h : p.1 = k
  · simp [mapGet, List.find?_cons_of_pos, h]
  · simp [mapGet, List.find?_cons_of_neg, h]

theorem mapGet_mapPut_self {K V : Type} [DecidableEq K] (mp : List (K × V))
    (k : K) (v : V) : mapGet (mapPut mp k v) k = some v := by
  induction mp with
  | nil => simp [mapPut, mapGet_cons]
  | cons p ps ih =>
    by_cases h : p.1 = k
    · simp [mapPut, h, mapGet_cons]
    · simp [mapPut, h, mapGet_cons, ih]

theorem mapGet_mapPut_ne {K V : Type} [DecidableEq K] (mp : List (K × V))
    (k k' : K) (v : V) (h : k' ≠ k) :
    mapGet (mapPut mp k v) k' = mapGet mp k' := by
  induction mp with
  | nil => simp [mapPut, mapGet_cons, Ne.symm h]
  | cons p ps ih =>
    by_cases hp : p.1 = k
    · simp [mapPut, hp, mapGet_cons, Ne.symm h]
    · simp [mapPut, hp, mapGet_cons, ih]

/-! ## Pick: first-minimum characterisation -/

theorem pickAux_spec (scores : List (String × ℚ)) :
    ∀ (cs : List Node) (best : Node) (low : ℚ),
      (pickAux scores best low cs = best ∧ ∀ c ∈ cs, low ≤ nodeScore scores c)
      ∨ (∃ i : Nat, ∃ h : i < cs.length,
          pickAux scores best low cs = cs.get ⟨i, h⟩
          ∧ nodeScore scores (cs.get ⟨i, h⟩) < low
          ∧ (∀ j : Nat, ∀ hj : j < cs.length,
              nodeScore scores (cs.get ⟨i, h⟩) ≤ nodeScore scores (cs.get ⟨j, hj⟩))
          ∧ (∀ j : Nat, (hj : j < i) → nodeScore scores (cs.get ⟨i, h⟩) <
              nodeScore scores (cs.get ⟨j, Nat.lt_trans hj h⟩))) := by
  intro cs
  induction cs with
  | nil =>
    intro best low
    left
    exact ⟨rfl, by simp⟩
  | cons c cs ih =>
    intro best low
    by_cases hc : lookupScore scores c.name < low
    · rcases ih c (lookupScore scores c.name) with ⟨heq, hall⟩ | ⟨i, h, heq, hlt, hmin, hstrict⟩
      · right
        refine ⟨0, Nat.succ_pos _, ?_, ?_, ?_, ?_⟩
        · simpa [pickAux, hc] using heq
        · exact hc
        · intro j hj
          cases j with
          | zero => exact le_refl _
          | succ k =>
            exact hall _ (cs.get_mem k (Nat.lt_of_succ_lt_succ hj))
        · intro j hj
          exact absurd hj (Nat.not_lt_zero j)
      · right
        refine ⟨i + 1, Nat.succ_lt_succ h, ?_, ?_, ?_, ?_⟩
        · simpa [pickAux, hc] using heq
        · exact lt_trans hlt hc
        · intro j hj
          cases j with
          | zero => exact le_of_lt hlt
          | succ k => exact hmin k (Nat.lt_of_succ_lt_succ hj)
        · intro j hj
          cases j with
          | zero => exact hlt
          | succ k => exact hstrict k (Nat.lt_of_succ_lt_succ hj)
    · rcases ih best low with ⟨heq, hall⟩ | ⟨i, h, heq, hlt, hmin, hstrict⟩
      · left
        refine ⟨by simpa [pickAux, hc] using heq, ?_⟩
        intro x hx
        rcases List.mem_cons.mp hx with hx | hx
        · exact hx ▸ le_of_not_lt hc
        · exact hall x hx
      · right
        refine ⟨i + 1, Nat.succ_lt_succ h, ?_, ?_, ?_, ?_⟩
        · simpa [pickAux, hc] using heq
        · exact hlt
        · intro j hj
          cases j with
          | zero => exact le_trans (le_of_lt hlt) (le_of_not_lt hc)
          | succ k => exact hmin k (Nat.lt_of_succ_lt_succ hj)
        · intro j hj
          cases j with
          | zero => exact lt_of_lt_of_le hlt (le_of_not_lt hc)
          | succ k => exact hstrict k (Nat.lt_of_succ_lt_succ hj)

theorem mapGet_eq_some_lookupScore (scores : List (String × ℚ)) (nm : String)
    (h : (mapGet scores nm).isSome) :
    mapGet scores nm = some (lookupScore scores nm) := by
  cases hm : mapGet scores nm with
  | none => rw [hm] at h; exact absurd h (by simp)
  | some s => simp [lookupScore, hm]

/-- C3 (amended): for every nonempty candidate list and every score map
that contains an entry for every candidate, Pick returns a candidate that
is present in the list and whose map score equals the minimum of the
scores over the candidates, ties broken in favour of the smallest index
(every earlier candidate scores strictly higher).  As stated the claim
fails: greedy and E-PVM score maps may omit candidates whose stats call
failed, and Pick then reads the missing key as 0.0 and may return an
unscored node (see the counterexample). -/
theorem pick_returns_first_minimum (scores : List (String × ℚ)) (c : Node)
    (cs : List Node)
    (hcov : ∀ d ∈ c :: cs, (mapGet scores d.name).isSome) :
    ∃ i : Nat, ∃ h : i < (c :: cs).length,
      Pick scores (c :: cs) = some ((c :: cs).get ⟨i, h⟩)
      ∧ mapGet scores ((c :: cs).get ⟨i, h⟩).name
          = some (nodeScore scores ((c :: cs).get ⟨i, h⟩))
      ∧ (∀ j : Nat, ∀ hj : j < (c :: cs).length,
          nodeScore scores ((c :: cs).get ⟨i, h⟩)
            ≤ nodeScore scores ((c :: cs).get ⟨j, hj⟩))
      ∧ (∀ j : Nat, (hj : j < i) → nodeScore scores ((c :: cs).get ⟨i, h⟩)
          < nodeScore scores ((c :: cs).get ⟨j, Nat.lt_trans hj h⟩)) := by
  rcases pickAux_spec scores cs c (lookupScore scores c.name) with
    ⟨heq, hall⟩ | ⟨i, h, heq, hlt, hmin, hstrict⟩
  · refine ⟨0, Nat.succ_pos _, ?_, ?_, ?_, ?_⟩
    · simp [Pick, heq]
    · exact mapGet_eq_some_lookupScore _ _ (hcov c (List.mem_cons_self _ _))
    · intro j hj
      cases j with
      | zero => exact le_refl _
      | succ k => exact hall _ (cs.get_mem k (Nat.lt_of_succ_lt_succ hj))
    · intro j hj
      exact absurd hj (Nat.not_lt_zero j)
  · refine ⟨i + 1, Nat.succ_lt_succ h, ?_, ?_, ?_, ?_⟩
    · simp [Pick, heq]
    · exact mapGet_eq_some_lookupScore _ _
        (hcov _ (List.mem_cons_of_mem _ (cs.get_mem i h)))
    · intro j hj
      cases j with
      | zero => exact le_of_lt hlt
      | succ k => exact hmin k (Nat.lt_of_succ_lt_succ hj)
    · intro j hj
      cases j with
      | zero => exact hlt
      | succ k => exact hstrict k (Nat.lt_of_succ_lt_succ hj)

/-- C3 witness: at a fully covered two-candidate score map the hypotheses
hold and Pick returns the first minimum. -/
theorem pick_returns_first_minimum_witness :
    (∀ d ∈ mkNode "a" :: [mkNode "b"], (mapGet wScores d.name).isSome)
    ∧ (∃ i : Nat, ∃ h : i < (mkNode "a" :: [mkNode "b"]).length,
      Pick wScores (mkNode "a" :: [mkNode "b"])
          = some ((mkNode "a" :: [mkNode "b"]).get ⟨i, h⟩)
      ∧ mapGet wScores ((mkNode "a" :: [mkNode "b"]).get ⟨i, h⟩).name
          = some (nodeScore wScores ((mkNode "a" :: [mkNode "b"]).get ⟨i, h⟩))
      ∧ (∀ j : Nat, ∀ hj : j < (mkNode "a" :: [mkNode "b"]).length,
          nodeScore wScores ((mkNode "a" :: [mkNode "b"]).get ⟨i, h⟩)
            ≤ nodeScore wScores ((mkNode "a" :: [mkNode "b"]).get ⟨j, hj⟩))
      ∧ (∀ j : Nat, (hj : j < i) →
          nodeScore wScores ((mkNode "a" :: [mkNode "b"]).get ⟨i, h⟩)
            < nodeScore wScores ((mkNode "a" :: [mkNode "b"]).get ⟨j, Nat.lt_trans hj h⟩))) :=
  ⟨by decide, pick_returns_first_minimum wScores (mkNode "a") [mkNode "b"] (by decide)⟩

/-- C3 counterexample: with the score map produced by Greedy.Score when the
stats call for node "a" fails, Pick returns node "a" even though that node
has no entry in the score map at all (so its score cannot equal the
minimum of the scores, which is the 0 recorded for node "b"). -/
theorem pick_unscored_node_counterexample :
    Pick (GreedyScoreList statsFailA (87/50) [mkNode "a", mkNode "b"])
        [mkNode "a", mkNode "b"] = some (mkNode "a")
    ∧ mapGet (GreedyScoreList statsFailA (87/50) [mkNode "a", mkNode "b"])
        (mkNode "a").name = none
    ∧ mapGet (GreedyScoreList statsFailA (87/50) [mkNode "a", mkNode "b"])
        (mkNode "b").name = some 0 := by
  have h : GreedyScoreList statsFailA (87/50) [mkNode "a", mkNode "b"] = [("b", 0)] := by
    norm_num [GreedyScoreList, statsFailA, mkNode, calculateLoad, mapPut]
    rw [if_neg (by decide : ¬ (("b" : String) = "a"))]
    norm_num
  refine ⟨?_, ?_, ?_⟩ <;> rw [h] <;> decide

/-- C6 (amended): a node whose stats call fails during Greedy.Score is
absent from the returned score map (no node bearing that name was scored);
however Pick reads an absent candidate as the zero value 0.0, so when the
head candidate is unscored and no candidate reads a negative score, Pick
returns the unscored head — even when other candidates were scored. -/
theorem greedy_failed_node_absent (cpuUsage : Node → Option ℚ) (capa : ℚ)
    (nodes : List Node) (nm : String)
    (hfail : ∀ m ∈ nodes, m.name = nm → cpuUsage m = none) :
    mapGet (GreedyScoreList cpuUsage capa nodes) nm = none
    ∧ ∀ (scores : List (String × ℚ)) (c : Node) (cs : List Node),
        mapGet scores c.name = none →
        (∀ d ∈ cs, 0 ≤ nodeScore scores d) →
        Pick scores (c :: cs) = some c := by
  constructor
  · have hgo : ∀ (ns : List Node) (acc : List (String × ℚ)),
        (∀ m ∈ ns, m.name = nm → cpuUsage m = none) →
        mapGet (ns.foldl
          (fun acc n =>
            match cpuUsage n with
            | none => acc
            | some u => mapPut acc n.name (calculateLoad u capa)) acc) nm
          = mapGet acc nm := by
      intro ns
      induction ns with
      | nil => intro acc _; rfl
      | cons n ns ih =>
        intro acc hns
        cases hu : cpuUsage n with
        | none => simpa [hu] using ih acc (fun m hm => hns m (List.mem_cons_of_mem _ hm))
        | some u =>
          have hne : n.name ≠ nm := by
            intro hcontra
            have := hns n (List.mem_cons_self _ _) hcontra
            rw [this] at hu
            exact Option.noConfusion hu
          have := ih (mapPut acc n.name (calculateLoad u capa))
            (fun m hm => hns m (List.mem_cons_of_mem _ hm))
          simpa [hu, mapGet_mapPut_ne _ _ _ _ (Ne.symm hne)] using this
    simpa [GreedyScoreList, mapGet] using hgo nodes [] hfail
  · intro scores c cs hzero hnn
    rcases pickAux_spec scores cs c (lookupScore scores c.name) with
      ⟨heq, _⟩ | ⟨i, h, _, hlt, _, _⟩
    · simp [Pick, heq]
    · have h0 : lookupScore scores c.name = 0 := by simp [lookupScore, hzero]
      rw [h0] at hlt
      exact absurd hlt (not_lt.mpr (hnn _ (cs.get_mem i h)))

/-- C6 witness: with the fixture oracle failing exactly for node "w1", the
hypotheses hold and the amended conclusion follows. -/
theorem greedy_failed_node_absent_witness :
    (∀ m ∈ [mkNode "w1", mkNode "w2"], m.name = "w1" → statsFailW1 m = none)
    ∧ (mapGet (GreedyScoreList statsFailW1 (87/50) [mkNode "w1", mkNode "w2"]) "w1" = none
      ∧ ∀ (scores : List (String × ℚ)) (c : Node) (cs : List Node),
          mapGet scores c.name = none →
          (∀ d ∈ cs, 0 ≤ nodeScore scores d) →
          Pick scores (c :: cs) = some c) :=
  ⟨by decide,
   greedy_failed_node_absent statsFailW1 (87/50) [mkNode "w1", mkNode "w2"] "w1" (by decide)⟩

/-- C6 counterexample: node "w1" is unscored (its stats call failed) while
node "w2" was successfully scored, yet Pick returns the unscored "w1". -/
theorem pick_returns_failed_node_counterexample :
    statsFailW1 (mkNode "w1") = none
    ∧ mapGet (GreedyScoreList statsFailW1 (87/50) [mkNode "w1", mkNode "w2"]) "w2"
        = some 0
    ∧ Pick (GreedyScoreList statsFailW1 (87/50) [mkNode "w1", mkNode "w2"])
        [mkNode "w1", mkNode "w2"] = some (mkNode "w1") := by
  have h : GreedyScoreList statsFailW1 (87/50) [mkNode "w1", mkNode "w2"] = [("w2", 0)] := by
    norm_num [GreedyScoreList, statsFailW1, mkNode, calculateLoad, mapPut]
    rw [if_neg (by decide : ¬ (("w2" : String) = "w1"))]
    norm_num
  refine ⟨rfl, ?_, ?_⟩ <;> rw [h] <;> decide

/-- C5 (amended): SelectWorker fails with the no-candidates error exactly
when the candidate filter returns the empty (nil) slice; the no-scores
branch tests map nil-ness, and since Greedy.Score always returns an
allocated (possibly empty) map, on any nonempty candidate list
SelectWorker returns the result of Pick — it does not fail when the score
map is merely empty. -/
theorem selectWorker_greedy_spec (cpuUsage : Node → Option ℚ) (capa : ℚ)
    (t : Task) (ns : List Node) :
    (selectCandidateNodes t ns = [] →
      SelectWorker (selectCandidateNodes t) (GreedyScore cpuUsage capa) ns
        = Except.error "No available candidates match resource request for task")
    ∧ (selectCandidateNodes t ns ≠ [] →
      SelectWorker (selectCandidateNodes t) (GreedyScore cpuUsage capa) ns
        = Except.ok (Pick (GreedyScoreList cpuUsage capa (selectCandidateNodes t ns))
            (selectCandidateNodes t ns))) := by
  constructor <;> intro h <;> simp [SelectWorker, GreedyScore, h]

/-- C5 witness: both branches of the amended claim at concrete inputs — a
feasible node yields Pick, and an infeasible disk request yields the
no-candidates error. -/
theorem selectWorker_greedy_spec_witness :
    SelectWorker (selectCandidateNodes (mkTask 1 "t")) (GreedyScore statsFailAll (87/50))
        [mkNode "w1"]
      = Except.ok (Pick (GreedyScoreList statsFailAll (87/50)
          (selectCandidateNodes (mkTask 1 "t") [mkNode "w1"]))
          (selectCandidateNodes (mkTask 1 "t") [mkNode "w1"]))
    ∧ SelectWorker (selectCandidateNodes bigTask) (GreedyScore statsFailAll (87/50))
        [mkNode "w1"]
      = Except.error "No available candidates match resource request for task" :=
  ⟨(selectWorker_greedy_spec statsFailAll (87/50) (mkTask 1 "t") [mkNode "w1"]).2 (by decide),
   (selectWorker_greedy_spec statsFailAll (87/50) bigTask [mkNode "w1"]).1 (by decide)⟩

/-- C5 counterexample: with a single candidate whose stats call fails,
Greedy.Score returns the empty (but allocated, hence non-nil) map, and
SelectWorker does not fail with the no-scores error — it returns the first
candidate, whose missing score reads as 0.0. -/
theorem selectWorker_empty_scores_counterexample :
    GreedyScoreList statsFailAll (87/50)
        (selectCandidateNodes (mkTask 1 "t") [mkNode "w1"]) = []
    ∧ SelectWorker (selectCandidateNodes (mkTask 1 "t"))
        (GreedyScore statsFailAll (87/50)) [mkNode "w1"]
      = Except.ok (some (mkNode "w1")) :=
  ⟨rfl, rfl⟩

/-! ## Worker claims -/

/-- C8: for every task and every driver outcome, StopTask returns exactly
the driver result (errors included) and persists the task with
`FinishTime = now` and `State = Completed`; the stored state never depends
on whether the driver `Stop` call errored. -/
theorem stopTask_completes_regardless (stop : String → DockerResult)
    (now : Nat) (db : List (Nat × Task)) (t : Task) :
    (StopTask stop now db t).1 = stop t.containerID
    ∧ mapGet (StopTask stop now db t).2 t.id
        = some { t with finishTime := now, state := State.Completed } :=
  ⟨rfl, by simp [StopTask, mapGet_mapPut_self]⟩

/-- C4 (code-bug evidence): on a Running task whose container inspect
returns `Container == nil`, the worker pass does persist `State = Failed`,
but the very next statement reads `resp.Container.State.Status` through the
nil pointer and panics, so the pass aborts instead of logging and
continuing to the remaining tasks: here the second task is never
reconciled. -/
theorem updateTasks_nil_container_crashes :
    updateTasks inspectNil
        [(1, runningTask), (2, { runningTask with id := 2, name := "running2" })]
      = Except.error "runtime error: invalid memory address or nil pointer dereference" :=
  rfl

/-! ## Manager dispatch (C2) -/

/-- C2 (amended): when the POST of a new placement to the chosen worker fails
with a transport error, SendWork re-enqueues the bare task (in state
Scheduled, not the event) onto Pending — but `TaskWorkerMap[task.ID]` IS
populated with the chosen worker, because the map is written before the
POST and the write is not rolled back; a later SendWork pass therefore
does not re-run placement for that task (it takes the already-placed
branch — and in fact the dequeue of the re-enqueued bare task panics on
the `e.(task.TaskEvent)` type assertion). -/
theorem sendWork_transport_failure (selectW : Task → List Node → Except String (Option Node))
    (post : TaskEvent → String → PostOutcome) (m : MState) (te : TaskEvent)
    (rest : List PendingItem) (w : Node)
    (hp : m.pending = PendingItem.event te :: rest)
    (hmap : mapGet m.taskWorkerMap te.task.id = none)
    (hsel : selectW te.task m.workerNodes = Except.ok (some w))
    (hpost : post te w.name = PostOutcome.transportError) :
    ∃ m1, SendWork selectW post m = Except.ok m1
      ∧ m1.pending = rest ++ [PendingItem.task { te.task with state := State.Scheduled }]
      ∧ mapGet m1.taskWorkerMap te.task.id = some w.name := by
  have hrun : SendWork selectW post m
      = Except.ok
          { m with
            pending := rest ++ [PendingItem.task { te.task with state := State.Scheduled }],
            eventDb := mapPut m.eventDb te.id te,
            workerTaskMap := appendWorkerTask m.workerTaskMap w.name te.task.id,
            taskWorkerMap := mapPut m.taskWorkerMap te.task.id w.name,
            taskDb := mapPut m.taskDb te.task.id { te.task with state := State.Scheduled } } := by
    simp [SendWork, hp, hmap, hsel, hpost]
  exact ⟨_, hrun, rfl, by simp [mapGet_mapPut_self]⟩

/-- C2 witness: the hypotheses hold at the concrete fixture manager and the
amended conclusion follows. -/
theorem sendWork_transport_failure_witness :
    m0.pending = PendingItem.event te7 :: []
    ∧ mapGet m0.taskWorkerMap te7.task.id = none
    ∧ selOkW1 te7.task m0.workerNodes = Except.ok (some (mkNode "w1"))
    ∧ postFailAlways te7 (mkNode "w1").name = PostOutcome.transportError
    ∧ (∃ m1, SendWork selOkW1 postFailAlways m0 = Except.ok m1
        ∧ m1.pending = [] ++ [PendingItem.task { te7.task with state := State.Scheduled }]
        ∧ mapGet m1.taskWorkerMap te7.task.id = some (mkNode "w1").name) :=
  ⟨rfl, rfl, rfl, rfl,
   sendWork_transport_failure selOkW1 postFailAlways m0 te7 [] (mkNode "w1") rfl rfl rfl rfl⟩

/-- C2 counterexample: after a dispatch whose POST fails in transport, the
task is back on Pending but `TaskWorkerMap[7]` HAS been populated with the
chosen worker, contradicting the claim that it is left unpopulated. -/
theorem sendWork_taskWorkerMap_populated_counterexample :
    (SendWork selOkW1 postFailAlways m0).toOption.map
        (fun m1 => (mapGet m1.taskWorkerMap 7, m1.pending))
      = some (some "w1", [PendingItem.task { te7.task with state := State.Scheduled }]) :=
  rfl

/-! ## Restart counting (C7) -/

theorem restartTask_taskDb (post : TaskEvent → String → PostOutcome)
    (newEventId now : Nat) (m : MState) (t : Task) :
    (restartTask post newEventId now m t).taskDb
      = mapPut m.taskDb t.id
          { t with state := State.Scheduled, restartCount := t.restartCount + 1 } := by
  simp only [restartTask]
  split <;> rfl

theorem mapGet_of_mem_nodup {K V : Type} [DecidableEq K] (mp : List (K × V))
    (p : K × V) (hmem : p ∈ mp) (hnd : (mp.map Prod.fst).Nodup) :
    mapGet mp p.1 = some p.2 := by
  induction mp with
  | nil => cases hmem
  | cons q qs ih =>
    rw [List.map_cons, List.nodup_cons] at hnd
    rcases List.mem_cons.mp hmem with rfl | hmem1
    · simp [mapGet_cons]
    · have hq : q.1 ≠ p.1 := by
        intro hcontra
        exact hnd.1 (hcontra ▸ List.mem_map_of_mem Prod.fst hmem1)
      simp [mapGet_cons, hq, ih hmem1 hnd.2]

theorem doHealthChecksGo_char (health : Task → Bool)
    (post : TaskEvent → String → PostOutcome) (newEventId now : Nat) :
    ∀ (ts : List Task) (m : MState) (id : Nat) (t1 : Task),
      mapGet (doHealthChecksGo health post newEventId now ts m).taskDb id = some t1 →
      mapGet m.taskDb id = some t1
      ∨ ∃ t ∈ ts, t.id = id ∧ t.restartCount < 3
          ∧ t1 = { t with state := State.Scheduled, restartCount := t.restartCount + 1 } := by
  intro ts
  induction ts with
  | nil =>
    intro m id t1 h
    exact Or.inl h
  | cons t ts ih =>
    intro m id t1 h
    rw [doHealthChecksGo] at h
    rcases ih _ id t1 h with hbase | ⟨u, hu, hrest⟩
    · -- the step state already held t1 under id: case on the step taken
      have hstep :
          mapGet m.taskDb id = some t1
          ∨ (t.id = id ∧ t.restartCount < 3
              ∧ t1 = { t with state := State.Scheduled, restartCount := t.restartCount + 1 }) := by
        by_cases h1 : t.state = State.Running ∧ t.restartCount < 3
        · rw [if_pos h1] at hbase
          by_cases hh : health t
          · rw [if_pos hh] at hbase
            exact Or.inl hbase
          · rw [if_neg hh, if_pos h1.2] at hbase
            rw [restartTask_taskDb] at hbase
            by_cases hid : id = t.id
            · subst hid
              rw [mapGet_mapPut_self] at hbase
              exact Or.inr ⟨rfl, h1.2, (Option.some.injEq _ _ ▸ hbase).symm⟩
            · rw [mapGet_mapPut_ne _ _ _ _ hid] at hbase
              exact Or.inl hbase
        · rw [if_neg h1] at hbase
          by_cases h2 : t.state = State.Failed ∧ t.restartCount < 3
          · rw [if_pos h2] at hbase
            rw [restartTask_taskDb] at hbase
            by_cases hid : id = t.id
            · subst hid
              rw [mapGet_mapPut_self] at hbase
              exact Or.inr ⟨rfl, h2.2, (Option.some.injEq _ _ ▸ hbase).symm⟩
            · rw [mapGet_mapPut_ne _ _ _ _ hid] at hbase
              exact Or.inl hbase
          · rw [if_neg h2] at hbase
            exact Or.inl hbase
      rcases hstep with hstep | ⟨hid, hlt, ht1⟩
      · exact Or.inl hstep
      · exact Or.inr ⟨t, List.mem_cons_self _ _, hid, hlt, ht1⟩
    · exact Or.inr ⟨u, List.mem_cons_of_mem _ hu, hrest⟩

/-- C7: RestartCount never decreases and never passes 3 under the manager
health-check pass.  First conjunct: `restartTask` increments the counter by
exactly one (and stores state Scheduled).  Second conjunct: over one
`doHealthChecks` pass, every stored task either is unchanged or had
`RestartCount < 3` and was restarted with the counter incremented by one —
hence the counter is monotone non-decreasing and a counter at most 3 stays
at most 3. -/
theorem restartCount_monotone_bounded (health : Task → Bool)
    (post : TaskEvent → String → PostOutcome) (newEventId now : Nat) (m : MState)
    (hkeys : (m.taskDb.map Prod.fst).Nodup)
    (hid : ∀ p ∈ m.taskDb, p.1 = p.2.id) :
    (∀ (m2 : MState) (t : Task),
      mapGet (restartTask post newEventId now m2 t).taskDb t.id
        = some { t with state := State.Scheduled, restartCount := t.restartCount + 1 })
    ∧ ∀ (id : Nat) (t1 : Task),
        mapGet (doHealthChecks health post newEventId now m).taskDb id = some t1 →
        ∃ t, mapGet m.taskDb id = some t
          ∧ (t1 = t ∨ (t.restartCount < 3
              ∧ t1 = { t with state := State.Scheduled, restartCount := t.restartCount + 1 }))
          ∧ t.restartCount ≤ t1.restartCount
          ∧ (t.restartCount ≤ 3 → t1.restartCount ≤ 3) := by
  constructor
  · intro m2 t
    rw [restartTask_taskDb]
    exact mapGet_mapPut_self _ _ _
  · intro id t1 h
    rcases doHealthChecksGo_char health post newEventId now _ m id t1 h with
      hsame | ⟨t, htmem, htid, hlt, ht1⟩
    · exact ⟨t1, hsame, Or.inl rfl, le_refl _, fun hb => hb⟩
    · rcases List.mem_map.mp htmem with ⟨p, hp, hpt⟩
      have hkey : p.1 = id := by
        rw [hid p hp, hpt, htid]
      have hget : mapGet m.taskDb id = some t := by
        rw [← hkey, ← hpt]
        exact mapGet_of_mem_nodup _ _ hp hkeys
      refine ⟨t, hget, Or.inr ⟨hlt, ht1⟩, ?_, ?_⟩
      · rw [ht1]
        exact le_of_lt (lt_add_one _)
      · intro _
        rw [ht1]
        simp only []
        omega

/-- C7 witness: on a concrete manager holding a Running task (failing its
health probe, counter 0) and a Failed task (counter 2), the hypotheses hold
and the pass conclusion follows. -/
theorem restartCount_monotone_bounded_witness :
    (mHealth.taskDb.map Prod.fst).Nodup
    ∧ (∀ p ∈ mHealth.taskDb, p.1 = p.2.id)
    ∧ ((∀ (m2 : MState) (t : Task),
        mapGet (restartTask postFailAlways 9 5 m2 t).taskDb t.id
          = some { t with state := State.Scheduled, restartCount := t.restartCount + 1 })
      ∧ ∀ (id : Nat) (t1 : Task),
          mapGet (doHealthChecks healthFailAll postFailAlways 9 5 mHealth).taskDb id
            = some t1 →
          ∃ t, mapGet mHealth.taskDb id = some t
            ∧ (t1 = t ∨ (t.restartCount < 3
                ∧ t1 = { t with state := State.Scheduled, restartCount := t.restartCount + 1 }))
            ∧ t.restartCount ≤ t1.restartCount
            ∧ (t.restartCount ≤ 3 → t1.restartCount ≤ 3)) :=
  ⟨by decide, by decide,
   restartCount_monotone_bounded healthFailAll postFailAlways 9 5 mHealth
     (by decide) (by decide)⟩

/-! ## E-PVM algebra (C9) -/

/-- C9 (amended): the cpuCost term
`L^cpuLoad + L^jobPctAfter − L^cpuLoad − L^jobPctCurrent` algebraically
reduces to `L^jobPctAfter − L^jobPctCurrent` — the first and third terms
cancel, leaving coefficient 1, not the factor 2 the claim states. -/
theorem cpuCost_reduces (cpuLoad : ℝ) (taskCount : Int) :
    cpuCost cpuLoad taskCount
      = LIEB ^ (((taskCount : ℝ) + 1) / maxJobs)
        - LIEB ^ ((taskCount : ℝ) / maxJobs) := by
  unfold cpuCost
  ring

/-- C9 counterexample: at `cpuLoad = 0` and `TaskCount = 0` the cpuCost
term does not equal `2·(L^jobPctAfter − L^jobPctCurrent)`: the two sides
differ because `L^(1/4) ≠ L^0` for the base `L > 1`. -/
theorem cpuCost_not_double_counterexample :
    ¬ (cpuCost 0 0
        = 2 * (LIEB ^ ((((0 : Int) : ℝ) + 1) / maxJobs)
            - LIEB ^ (((0 : Int) : ℝ) / maxJobs))) := by
  intro hcontra
  have hL : (1 : ℝ) < LIEB := by norm_num [LIEB]
  have e1 : (((0 : Int) : ℝ) + 1) / maxJobs = (1 : ℝ) / 4 := by
    norm_num [maxJobs]
  have e2 : ((0 : Int) : ℝ) / maxJobs = (0 : ℝ) := by
    norm_num [maxJobs]
  unfold cpuCost at hcontra
  rw [e1, e2, Real.rpow_zero] at hcontra
  have hgt : (1 : ℝ) < LIEB ^ ((1 : ℝ) / 4) := by
    have h0 := (Real.rpow_lt_rpow_left_iff hL).mpr (by norm_num : (0 : ℝ) < 1 / 4)
    rwa [Real.rpow_zero] at h0
  linarith

end Cube
